import Mathlib

/-!
Verification development for the NexusFilm/my-ai-video code-generation core.

The definitions below are shallow embeddings of the TypeScript source:

* the dynamic compiler (`prepareCode`, `formatContext`, `formatBabelError`,
  `appendReturn`, `compileCode`) from
  `src/src/components/AnimationPlayer/RenderControls/index.tsx`
  (the copy of `compiler.ts` that carries the Babel-error formatter);
* the streaming controller pieces (`estimateCodeLength`, fence stripping,
  progress computation, `runGeneration` start guard, `triggerFix`) from
  `src/components/PromptInput.tsx` (first revision in `src/unnamed/part_002`);
* the generate-page auto-heal state machine from `src/src/app/generate/page.tsx`;
* the quick-fix line replacement from the `/api/quick-fix` route
  (`src/unnamed/part_007`);
* the in-memory rate limiter from `src/src/lib/rate-limiter.ts`.

External collaborators (the Babel transpiler, the JavaScript engine behind
`new Function`, the network transports) are passed in as explicit parameters
or, where a concrete behavior is needed, modelled from the spec with a doc
comment saying so.  JavaScript strings are modelled by `String`, numbers by
`Nat`/`Int` (no fractional arithmetic is needed: `Math.round(x*100)` is
computed exactly on rationals of the form n/e), and thrown exceptions by
`Except`.
-/

/-! ### JavaScript string primitives -/

/-- Membership in the JavaScript regex class `\s` for the characters that can
occur in our inputs (space, tab, carriage return, form feed, vertical tab and
newline). -/
def jsWsChar (c : Char) : Bool :=
  c == ' ' || c == '\t' || c == '\r' || c == '\n' || c == '\x0b' || c == '\x0c'

/-- JavaScript `Array.prototype.join("\n")`. -/
def joinNL : List String → String
  | [] => ""
  | [l] => l
  | l :: l2 :: ls => l ++ "\n" ++ joinNL (l2 :: ls)

/-- Scan for an occurrence of `needle` inside `hay` (character lists). -/
def infixScan (hay needle : List Char) : Bool :=
  match hay with
  | [] => needle.isEmpty
  | _ :: t => needle.isPrefixOf hay || infixScan t needle

/-- JavaScript `String.prototype.includes`. -/
def strContainsB (s sub : String) : Bool :=
  infixScan s.data sub.data

/-- Propositional substring containment, used in general theorems. -/
def containsStr (s sub : String) : Prop :=
  ∃ a b : List Char, s.data = a ++ sub.data ++ b

/-- JavaScript `String.prototype.trim`, as a structural function. -/
def jsTrim (s : String) : String :=
  String.mk (((s.data.dropWhile jsWsChar).reverse.dropWhile jsWsChar).reverse)

/-- Split a character list at every newline. -/
def splitNLChars : List Char → List (List Char)
  | [] => [[]]
  | '\n' :: t => [] :: splitNLChars t
  | c :: t =>
    match splitNLChars t with
    | h :: r => (c :: h) :: r
    | [] => [[c]]

/-- JavaScript `split("\n")` / `split(/\n/)`, as a structural function. -/
def splitNL (s : String) : List String :=
  (splitNLChars s.data).map String.mk

/-! ### Dynamic compiler: `prepareCode`
(`RenderControls/index.tsx` lines 60-70, identical in `compiler.ts` 33-43).
Each of the four `String.replace` calls with `/^.../gm` patterns is
line-local and preserves the line structure, so the whole-string replaces
are embedded as per-line transforms followed by a re-join and `trim`. -/

/-- A line matched by `/^import\s+.*$/m`: the word `import` followed by at
least one whitespace character. -/
def isImportLine (l : String) : Bool :=
  match l.data with
  | 'i' :: 'm' :: 'p' :: 'o' :: 'r' :: 't' :: c :: _ => jsWsChar c
  | _ => false

/-- One line under `replace(/^export\s+const/m, "const")`. -/
def exportConstLine (l : String) : String :=
  match l.data with
  | 'e' :: 'x' :: 'p' :: 'o' :: 'r' :: 't' :: c :: rest =>
    if jsWsChar c then
      let r := (c :: rest).dropWhile jsWsChar
      if ('c' :: 'o' :: 'n' :: 's' :: 't' :: []).isPrefixOf r then
        String.mk ('c' :: 'o' :: 'n' :: 's' :: 't' :: r.drop 5)
      else l
    else l
  | _ => l

/-- One line under `replace(/^export\s+default\s+/m, "")`. -/
def exportDefaultLine (l : String) : String :=
  match l.data with
  | 'e' :: 'x' :: 'p' :: 'o' :: 'r' :: 't' :: c :: rest =>
    if jsWsChar c then
      let r := (c :: rest).dropWhile jsWsChar
      if ('d' :: 'e' :: 'f' :: 'a' :: 'u' :: 'l' :: 't' :: []).isPrefixOf r then
        match r.drop 7 with
        | d :: _ =>
          if jsWsChar d then String.mk ((r.drop 7).dropWhile jsWsChar) else l
        | [] => l
      else l
    else l
  | _ => l

/-- One line under `replace(/^export\s+function/m, "function")`. -/
def exportFunctionLine (l : String) : String :=
  match l.data with
  | 'e' :: 'x' :: 'p' :: 'o' :: 'r' :: 't' :: c :: rest =>
    if jsWsChar c then
      let r := (c :: rest).dropWhile jsWsChar
      if ('f' :: 'u' :: 'n' :: 'c' :: 't' :: 'i' :: 'o' :: 'n' :: []).isPrefixOf r then
        String.mk ('f' :: 'u' :: 'n' :: 'c' :: 't' :: 'i' :: 'o' :: 'n' :: r.drop 8)
      else l
    else l
  | _ => l

/-- The four sequential replaces of `prepareCode`, applied to one line. -/
def prepLine (l : String) : String :=
  exportFunctionLine (exportDefaultLine (exportConstLine
    (if isImportLine l then "" else l)))

/-- `prepareCode` (`RenderControls/index.tsx` 60-70): blank the matching
lines, localize the export keywords, then `trim` the whole string. -/
def prepareCode (code : String) : String :=
  jsTrim (joinNL ((splitNL code).map prepLine))

/-! ### Dynamic compiler: error formatting
(`RenderControls/index.tsx` lines 81-101 and 252-260). -/

/-- A Babel source location (`loc` of a thrown Babel error). -/
structure BabelLoc where
  line : Nat
  column : Option Nat
deriving DecidableEq

/-- A thrown JavaScript value: either an `Error`-like object with a message,
an optional Babel location and an optional stack, or some non-object value. -/
inductive JsThrown where
  | errObj (message : String) (loc : Option BabelLoc) (stack : Option String)
  | nonError
deriving DecidableEq

/-- The `.map((l, idx) => start + idx + 1 + ": " + l)` numbering step of
`formatContext`, with `k` the 1-based number of the first listed line. -/
def numberLines (k : Nat) : List String → List String
  | [] => []
  | l :: ls => (toString k ++ ": " ++ l) :: numberLines (k + 1) ls

/-- `formatContext` (`RenderControls/index.tsx` 81-89) with the default
radius 2: slice `[max 0 (line-3), min len (line+2))` of the source lines and
prefix each with its 1-based number. -/
def formatContext (source : String) (line : Nat) : String :=
  let lines := splitNL source
  let start := line - 1 - 2
  let stop := min lines.length (line - 1 + 2 + 1)
  joinNL (numberLines (start + 1) ((lines.drop start).take (stop - start)))

/-- `formatBabelError` (`RenderControls/index.tsx` 91-101).  A zero line is
falsy in JavaScript, hence the `l.line = 0` branch. -/
def formatBabelError (preparedCode : String) (e : JsThrown) : String :=
  match e with
  | JsThrown.errObj msg loc _ =>
    match loc with
    | some l =>
      if l.line = 0 then msg
      else
        msg ++ " (line " ++ toString l.line ++ ", col " ++
          toString (l.column.getD 0) ++ ")\n" ++ formatContext preparedCode l.line
    | none => msg
  | JsThrown.nonError => "Unknown compilation error"

/-- The outer catch of `compileCode` (`RenderControls/index.tsx` 252-260):
append the second stack line when present and non-empty. -/
def formatRuntimeError (e : JsThrown) : String :=
  match e with
  | JsThrown.errObj msg _ stack =>
    match stack with
    | some st =>
      match (splitNL st)[1]? with
      | some sl => if jsTrim sl = "" then msg else msg ++ " (" ++ jsTrim sl ++ ")"
      | none => msg
    | none => msg
  | JsThrown.nonError => "Unknown compilation error"

/-! ### Dynamic compiler: locating the export
(`RenderControls/index.tsx` lines 130-147, identical in `compiler.ts` 76-93). -/

/-- JavaScript regex class `\w`. -/
def isWordChar (c : Char) : Bool :=
  c.isAlphanum || c == '_'

/-- Try one keyword alternative of `(?:const|function)\s+(\w+)` anchored at
the current position; on success return the captured name and the remainder
after the whole match. -/
def matchKwAt (kw cs : List Char) : Option (String × List Char) :=
  if kw.isPrefixOf cs then
    match cs.drop kw.length with
    | c :: rest =>
      if jsWsChar c then
        let r2 := (c :: rest).dropWhile jsWsChar
        let name := r2.takeWhile isWordChar
        if name.isEmpty then none else some (String.mk name, r2.drop name.length)
      else none
    | [] => none
  else none

/-- The regex `(?:const|function)\s+(\w+)` anchored at the current position,
trying the alternatives in source order. -/
def matchDeclAt (cs : List Char) : Option (String × List Char) :=
  match matchKwAt ('c' :: 'o' :: 'n' :: 's' :: 't' :: []) cs with
  | some r => some r
  | none => matchKwAt ('f' :: 'u' :: 'n' :: 'c' :: 't' :: 'i' :: 'o' :: 'n' :: []) cs

/-- The global scan of `finalCode.match(/(?:const|function)\s+(\w+)/g)`:
left-to-right, non-overlapping, restarting after each full match. -/
def scanDecls (fuel : Nat) (cs : List Char) (acc : List String) : List String :=
  match fuel with
  | 0 => acc
  | fuel' + 1 =>
    match cs with
    | [] => acc
    | _ :: t =>
      match matchDeclAt cs with
      | some (name, rest) => scanDecls fuel' rest (acc ++ [name])
      | none => scanDecls fuel' t acc

/-- The name captured by the last regex match, as used at
`RenderControls/index.tsx` 140-144 (`match[match.length-1]` split on
whitespace, component 1). -/
def lastDeclName (code : String) : Option String :=
  (scanDecls code.data.length code.data []).getLast?

/-- The return-appending step (`RenderControls/index.tsx` 130-147). -/
def appendReturn (finalCode : String) : String :=
  if strContainsB finalCode "return MyAnimation" then finalCode
  else if strContainsB finalCode "const MyAnimation" then
    finalCode ++ "\nreturn MyAnimation;"
  else if strContainsB finalCode "function MyAnimation" then
    finalCode ++ "\nreturn MyAnimation;"
  else
    match lastDeclName finalCode with
    | some name => finalCode ++ "\nreturn " ++ name ++ ";"
    | none => finalCode

/-! ### Dynamic compiler: construction and invocation
(`RenderControls/index.tsx` lines 149-251).  The `new Function` call and its
invocation run in the external JavaScript engine; `compileCode` below takes
that engine step as the `construct` parameter, and the Babel transpilation
step as the `transpile` parameter.  A small concrete evaluator, modelled
from the spec, is provided further down for closed instances. -/

/-- The JavaScript value classes the compiler distinguishes: `typeof v ===
"function"` versus anything else. -/
inductive JsValue where
  | jsFunc
  | jsNum
  | jsUndef
deriving DecidableEq

/-- Compilation result (`RenderControls/index.tsx` 54-57): a component
reference or an error string. -/
structure CompilationResult where
  Component : Option JsValue
  error : Option String
deriving DecidableEq

/-- `compileCode` (`RenderControls/index.tsx` 73-261).  The input guard, the
prepare step, the inner Babel try/catch, the falsy-output check, the
return-appending step, the construction/invocation step and the `typeof`
check, with every thrown exception converted to an error result. -/
def compileCode (transpile : String → Except JsThrown String)
    (construct : String → Except JsThrown JsValue) (code : String) :
    CompilationResult :=
  if jsTrim code = "" then { Component := none, error := some "No code provided" }
  else
    let preparedCode := prepareCode code
    match transpile preparedCode with
    | Except.error e =>
      { Component := none, error := some (formatBabelError preparedCode e) }
    | Except.ok t =>
      if t = "" then { Component := none, error := some "Transpilation failed" }
      else
        let finalCode := appendReturn t
        match construct finalCode with
        | Except.error e =>
          { Component := none, error := some (formatRuntimeError e) }
        | Except.ok v =>
          if v = JsValue.jsFunc then { Component := some v, error := none }
          else
            { Component := none,
              error := some "Code must be a function that returns a React component" }

/-- Net brace nesting change contributed by one line. -/
def braceDelta (l : String) : Int :=
  ((l.data.filter (fun c => c == '{')).length : Int) -
    ((l.data.filter (fun c => c == '}')).length : Int)

/-- Statement shapes recognized by the modelled evaluator. -/
inductive JsStmt where
  | constBind (name : String) (isFunc : Bool)
  | returnStmt (name : String)
  | other
deriving DecidableEq

/-- Parse one top-level line of the synthesized body. -/
def parseStmt (l : String) : JsStmt :=
  let t := jsTrim l
  match matchKwAt ('c' :: 'o' :: 'n' :: 's' :: 't' :: []) t.data with
  | some (n, _) => JsStmt.constBind n (strContainsB l "=>")
  | none =>
    if ('r' :: 'e' :: 't' :: 'u' :: 'r' :: 'n' :: ' ' :: []).isPrefixOf t.data then
      JsStmt.returnStmt (String.mk ((t.data.drop 7).takeWhile isWordChar))
    else JsStmt.other

/-- Modelled from the spec: the JavaScript engine evaluating the synthesized
function body (steps 5 and 6 of the compiler algorithm).  The engine itself
is an external collaborator; this model covers the straight-line shape those
steps rely on: top-level `const` bindings (an arrow literal binds a function
value, anything else a non-function value), nested blocks tracked by brace
depth, and a top-level `return ident` that looks the identifier up, throwing
a `ReferenceError` when it is not bound.  Falling off the end yields
`undefined`. -/
def jsEvalGo (depth : Int) (env : List (String × JsValue)) :
    List String → Except JsThrown JsValue
  | [] => Except.ok JsValue.jsUndef
  | l :: ls =>
    if depth = 0 then
      match parseStmt l with
      | JsStmt.constBind n f =>
        jsEvalGo (depth + braceDelta l)
          ((n, if f then JsValue.jsFunc else JsValue.jsNum) :: env) ls
      | JsStmt.returnStmt n =>
        match env.lookup n with
        | some v => Except.ok v
        | none => Except.error (JsThrown.errObj (n ++ " is not defined") none none)
      | JsStmt.other => jsEvalGo (depth + braceDelta l) env ls
    else jsEvalGo (depth + braceDelta l) env ls

/-- Modelled from the spec: entry point of the modelled engine evaluation. -/
def jsEvalBody (body : String) : Except JsThrown JsValue :=
  jsEvalGo 0 [] (splitNL body)

/-! ### Streaming controller: progress estimation
(`PromptInput.tsx`, first revision in `src/unnamed/part_002`, lines
142-171). -/

/-- ASCII lowering, the `/i` regex flag. -/
def toLowerStr (s : String) : String :=
  String.mk (s.data.map Char.toLower)

/-- Number of maximal whitespace runs in a character list. -/
def wsRunsGo (inWs : Bool) : List Char → Nat
  | [] => 0
  | c :: t =>
    if jsWsChar c then (if inWs then 0 else 1) + wsRunsGo true t
    else wsRunsGo false t

/-- `promptText.split(/\s+/).length`: one more than the number of maximal
whitespace runs (a leading or trailing run contributes an empty element). -/
def jsWordCount (s : String) : Nat :=
  wsRunsGo false s.data + 1

/-- Does the lowered text contain any of the given lowercase literals (the
`/a|b|.../i.test` pattern)? -/
def hasAnyKw (lower : String) (kws : List String) : Bool :=
  kws.any (fun k => strContainsB lower k)

/-- First alternative of a literal alternation matching at this position,
returning its length. -/
def firstAltAt (alts : List (List Char)) (cs : List Char) : Option Nat :=
  match alts with
  | [] => none
  | a :: rest => if a.isPrefixOf cs then some a.length else firstAltAt rest cs

/-- Number of non-overlapping matches of a literal alternation, scanning
left to right (the `/g` flag match count). -/
def countMatches (fuel : Nat) (alts : List (List Char)) (cs : List Char) : Nat :=
  match fuel with
  | 0 => 0
  | fuel' + 1 =>
    match cs with
    | [] => 0
    | _ :: t =>
      match firstAltAt alts cs with
      | some len => 1 + countMatches fuel' alts (cs.drop len)
      | none => countMatches fuel' alts t

/-- The alternation `/\+|and|with|also|then|multiple|several/gi`. -/
def multiAlts : List (List Char) :=
  ["+", "and", "with", "also", "then", "multiple", "several"].map String.data

/-- `estimateCodeLength` (`part_002` 142-171): base 200 adjusted by word
count and keyword classes, clamped to `[150, 400]`. -/
def estimateCodeLength (promptText : String) : Nat :=
  let lower := toLowerStr promptText
  let words := jsWordCount promptText
  let hasDataViz := hasAnyKw lower
    ["chart", "graph", "data", "visualiz", "plot", "bar", "line", "pie", "axis", "scale"]
  let hasPhysics := hasAnyKw lower
    ["bounc", "fall", "grav", "physic", "collid", "velocity", "spring", "easing"]
  let hasText := hasAnyKw lower
    ["text", "word", "sentence", "type", "font", "label", "title", "subtitle"]
  let hasImage := hasAnyKw lower
    ["image", "avatar", "logo", "picture", "photo", "icon", "element"]
  let hasAnimation := hasAnyKw lower
    ["animate", "transition", "fade", "slide", "zoom", "rotate", "scale", "morph", "pulse"]
  let hasMultiple := countMatches lower.data.length multiAlts lower.data
  let e0 : Int := 200
  let e1 : Int := e0 +
    (if words > 50 then 80 else if words > 30 then 40 else if words < 10 then -30 else 0)
  let e2 : Int := e1 + (if hasDataViz then 100 else 0) + (if hasPhysics then 80 else 0) +
    (if hasText then 40 else 0) + (if hasImage then 50 else 0) +
    (if hasAnimation then 60 else 0) + (if hasMultiple > 2 then 50 else 0)
  (max 150 (min 400 e2)).toNat

/-- The `APP RULES` template literal (`part_002` 275-283), transcribed
byte for byte (six-space indentation included). -/
def appRules : String :=
  "## APP RULES (always apply)\n" ++
  "      - Use Remotion/React: generate a single component, keep imports intact\n" ++
  "      - CRITICAL: NO trailing commas in import statements. Use: \x7d from \"remotion\"; NOT \x7d, from \"remotion\";\n" ++
  "      - For images: use standard HTML <img> tags (lowercase), NEVER <Img> or Image components\n" ++
  "      - For audio: use \x27new Audio()\x27 constructor, NEVER \x27Audio()\x27 without new\n" ++
  "      - Use provided assets (URLs) visibly in the animation with <img src=\"...\"> syntax\n" ++
  "      - Keep structure stable; make minimal edits when refining/fixing\n" ++
  "      - Respect timing, easing, and positions requested by the user\n" ++
  "      - Prefer lightweight animations; avoid heavy DOM or unnecessary reflows"

/-- The enhanced prompt assembled by `runGeneration` (`part_002` 284-328)
on the plain path: no assets, no reference images, no style presets.  The
parts are the app rules followed by the user-request section, joined with a
blank line. -/
def mkEnhancedPrompt (activePrompt : String) : String :=
  appRules ++ "\n\n" ++ "## YOUR REQUEST (user intent):\n" ++ activePrompt

/-! ### Streaming controller: fence stripping and progress
(`part_002` lines 424-437 and 450-461). -/

/-- Optional single `x` after a `ts`/`js` tag (`tsx?`/`jsx?`). -/
def dropOptX : List Char → List Char
  | 'x' :: r => r
  | r => r

/-- The optional language tag `(?:tsx?|jsx?)?` after an opening fence. -/
def dropLangTag (cs : List Char) : List Char :=
  if ('t' :: 's' :: []).isPrefixOf cs then dropOptX (cs.drop 2)
  else if ('j' :: 's' :: []).isPrefixOf cs then dropOptX (cs.drop 2)
  else cs

/-- The optional newline `\n?` closing the leading-fence pattern. -/
def dropOptNL : List Char → List Char
  | '\n' :: r => r
  | r => r

/-- `replace(/^```(?:tsx?|jsx?)?\n?/, "")`. -/
def stripLeadingFence (s : String) : String :=
  match s.data with
  | '`' :: '`' :: '`' :: rest => String.mk (dropOptNL (dropLangTag rest))
  | _ => s

/-- All characters whitespace (the `\s*$` tail check). -/
def allWs (cs : List Char) : Bool :=
  cs.all jsWsChar

/-- Does a closing fence followed only by whitespace start here? -/
def fenceAt (cs : List Char) : Bool :=
  match cs with
  | '`' :: '`' :: '`' :: rest => allWs rest
  | _ => false

/-- Index of the leftmost closing fence whose suffix is all whitespace. -/
def findFence (cs : List Char) (i : Nat) : Option Nat :=
  match cs with
  | [] => none
  | _ :: t => if fenceAt cs then some i else findFence t (i + 1)

/-- `replace(/\n?```\s*$/, "")`: remove the leftmost all-whitespace-suffixed
closing fence together with one preceding newline. -/
def stripTrailingFence (s : String) : String :=
  match findFence s.data 0 with
  | some i =>
    let pre := s.data.take i
    String.mk (if pre.getLast? = some '\n' then pre.dropLast else pre)
  | none => s

/-- The two display replaces applied to the accumulated stream text
(`part_002` 428-430, repeated at 451-453). -/
def stripFences (s : String) : String :=
  stripTrailingFence (stripLeadingFence s)

/-- `codeToShow.split('\n').length`. -/
def lineCount (s : String) : Nat :=
  (splitNL s).length

/-- `Math.round((n / e) * 100)` computed exactly for natural `n` and
positive `e`: round half up equals `⌊(200n + e) / 2e⌋`. -/
def jsRound100 (n e : Nat) : Nat :=
  (200 * n + e) / (2 * e)

/-- `Math.min(95, Math.round((currentLines / estimatedTotalLines) * 100))`
(`part_002` line 434). -/
def progressPercent (estimatedTotalLines currentLines : Nat) : Nat :=
  min 95 (jsRound100 currentLines estimatedTotalLines)

/-- Error kinds of the `onError` callback (`part_002` line 65). -/
inductive ErrKind where
  | validation
  | api
deriving DecidableEq

/-- Stream events parsed from the SSE frames (`part_002` 416-440). -/
inductive StreamEvt where
  | reasoningStart
  | textStart
  | textDelta (delta : String)
  | errorEvt (message : String)
  | unknownEvt
deriving DecidableEq

/-- Callbacks the controller delivers to its embedding page. -/
inductive GenCallback where
  | codeGenerated (code : String)
  | progressCb (percent : Nat) (total : Nat) (current : Nat)
  | errorCb (message : String) (kind : ErrKind)
deriving DecidableEq

/-- The SSE event loop body (`part_002` 416-447): a `text-delta` appends to
the accumulator, recomputes the display text and progress and forwards the
trimmed code; an `error` event throws, ending the loop; phase events and
unknown events add no callbacks here.  Returns the final accumulator, the
callbacks in order, and the thrown error message if any. -/
def runStreamEvents (estTotal : Nat) (acc : String) :
    List StreamEvt → String × List GenCallback × Option String
  | [] => (acc, [], none)
  | e :: rest =>
    match e with
    | StreamEvt.textDelta d =>
      let acc2 := acc ++ d
      let shown := stripFences acc2
      let cur := lineCount shown
      let r := runStreamEvents estTotal acc2 rest
      (r.1,
       GenCallback.progressCb (progressPercent estTotal cur) estTotal cur ::
         GenCallback.codeGenerated (jsTrim shown) :: r.2.1,
       r.2.2)
    | StreamEvt.errorEvt m => (acc, [], some m)
    | _ => runStreamEvents estTotal acc rest

/-- One whole streamed generation after a successful response
(`part_002` 388-484), parameterized by the external sanitizer
(`extractComponentCode`) and validator (`validateGptResponse`), neither of
which is part of this repository slice.  `abortAfter = some k` means the
abort signal fired after `k` reads: the next read rejects with an
`AbortError`, which the catch swallows, so no finalization and no error
callback follow; events past the abort point are never read. -/
def runGenerationStream (sanitize : String → String)
    (validate : String → Option String) (estTotal : Nat)
    (events : List StreamEvt) (abortAfter : Option Nat) : List GenCallback :=
  match abortAfter with
  | some k =>
    let r := runStreamEvents estTotal "" (events.take k)
    r.2.1 ++
      (match r.2.2 with
       | some m => [GenCallback.errorCb m ErrKind.api]
       | none => [])
  | none =>
    let r := runStreamEvents estTotal "" events
    match r.2.2 with
    | some m => r.2.1 ++ [GenCallback.errorCb m ErrKind.api]
    | none =>
      let finalCode := sanitize (stripFences r.1)
      r.2.1 ++
        [GenCallback.codeGenerated finalCode,
         GenCallback.progressCb 100 estTotal (lineCount finalCode)] ++
        (match validate finalCode with
         | some verr => [GenCallback.errorCb verr ErrKind.validation]
         | none => [])

/-! ### Streaming controller: the start guard
(`part_002` lines 192-200). -/

/-- What a call to `runGeneration` does before any network activity. -/
inductive StartOutcome where
  | dropped
  | startedFresh (newReq : Nat)
  | superseded (aborted : Nat) (newReq : Nat)
deriving DecidableEq

/-- The entry of `runGeneration` (`part_002` 192-200): the empty-prompt and
`isLoading` guard returns without touching the previous request; otherwise
any registered previous controller is aborted and replaced.  Controllers are
identified by numbers; the returned option is the new
`abortControllerRef.current`. -/
def runGenerationStart (activePrompt : String) (isLoading : Bool)
    (activeController : Option Nat) (newReq : Nat) :
    Option Nat × StartOutcome :=
  if (jsTrim activePrompt == "") || isLoading then
    (activeController, StartOutcome.dropped)
  else
    match activeController with
    | some old => (some newReq, StartOutcome.superseded old newReq)
    | none => (some newReq, StartOutcome.startedFresh newReq)

/-! ### Auto-heal fix transport
(`triggerFix`, `part_002` lines 530-613, and `analyzeError`,
`src/unnamed/part_006` lines 174-232). -/

/-- Agent status (`page.tsx` line 85). -/
inductive AgentStatus where
  | idle
  | monitoring
  | fixing
deriving DecidableEq

/-- `MAX_AUTO_RETRIES` (`page.tsx` line 86). -/
def maxAutoRetries : Nat := 2

/-- The page state relevant to the auto-heal loop: the toggle, the streaming
and compiling flags, the retry counter, the agent status, the generation
error with its kind, the compiler error string, and the
`justFinishedGenerationRef` flag. -/
structure PageState where
  autoHealEnabled : Bool
  isStreaming : Bool
  isCompiling : Bool
  autoFixCount : Nat
  agentStatus : AgentStatus
  generationError : Option (String × ErrKind)
  compileError : Option String
  justFinished : Bool
deriving DecidableEq

/-- One run of the `isStreaming` effect body with `isStreaming` true
(`page.tsx` 106-114): given the `agentStatus` the run reads, it returns the
retry counter it commits — `setAutoFixCount(0)` exactly when that status is
not `fixing`. -/
def streamEffectRun (status : AgentStatus) (count : Nat) : Nat :=
  if status = AgentStatus.fixing then count else 0

/-- Streaming turns on (`handleStreamingChange(true)`, `page.tsx` 209-218,
then the `isStreaming` effect, 102-129): errors are cleared and the agent
starts monitoring.  The effect lists `agentStatus` in its dependency array
(line 129), so it runs once with the pre-start status — resetting the
counter unless that status is `fixing` — and, whenever that first run
changed the status (it sets it to `monitoring`, line 108), the effect runs
again with the committed `monitoring` status while `isStreaming` is still
true; that second run passes the `agentStatus !== "fixing"` test and
executes `setAutoFixCount(0)`.  The composition of the committed runs is
the modelled transition. -/
def streamingStarts (s : PageState) : PageState :=
  let count1 := streamEffectRun s.agentStatus s.autoFixCount
  let count2 :=
    if s.agentStatus = AgentStatus.monitoring then count1
    else streamEffectRun AgentStatus.monitoring count1
  { s with
    isStreaming := true,
    generationError := none,
    agentStatus := AgentStatus.monitoring,
    autoFixCount := count2 }

/-- An `onError` callback during the stream (`page.tsx` 220-225). -/
def errorArrives (s : PageState) (message : String) (kind : ErrKind) : PageState :=
  { s with generationError := some (message, kind) }

/-- Streaming turns off (`handleStreamingChange(false)` and the
`isStreaming` effect, `page.tsx` 116-128): the accumulated code is compiled
(its error outcome is the parameter) and `justFinishedGenerationRef` is
set. -/
def streamingEnds (s : PageState) (compileOutcome : Option String) : PageState :=
  { s with
    isStreaming := false,
    compileError := compileOutcome,
    justFinished := true }

/-- `generationError?.message || error` with empty-string falsiness
(`page.tsx` line 142). -/
def currentError (s : PageState) : Option String :=
  match s.generationError with
  | some (m, _) =>
    if m = "" then
      match s.compileError with
      | some e => if e = "" then none else some e
      | none => none
    else some m
  | none =>
    match s.compileError with
    | some e => if e = "" then none else some e
    | none => none

/-- The early-return guard of the auto-heal effect (`page.tsx` line 134). -/
def healGuard (s : PageState) : Bool :=
  !s.autoHealEnabled || s.isStreaming || s.isCompiling ||
    decide (s.autoFixCount ≥ maxAutoRetries)

/-- The auto-heal effect (`page.tsx` 132-170).  Returns the next state and
whether a fix request was issued (`triggerFix` called). -/
def healCheck (s : PageState) : PageState × Bool :=
  if healGuard s then
    (if !s.isStreaming ∧ s.agentStatus = AgentStatus.fixing then
       { s with agentStatus := AgentStatus.idle }
     else s,
     false)
  else
    match currentError s with
    | some _ =>
      if s.justFinished then
        ({ s with
           justFinished := false,
           agentStatus := AgentStatus.fixing,
           autoFixCount := s.autoFixCount + 1 },
         true)
      else (s, false)
    | none =>
      (if !s.isStreaming then { s with agentStatus := AgentStatus.idle } else s,
       false)

/-- One generation cycle observed by the page: streaming starts, an optional
API/validation error arrives, streaming ends with a compile outcome, and the
auto-heal effect runs.  Returns the next state and whether a fix was
issued. -/
def generationCycle (apiErr : Option (String × ErrKind))
    (compileOutcome : Option String) (s : PageState) : PageState × Bool :=
  let s1 := streamingStarts s
  let s2 :=
    match apiErr with
    | some (m, k) => errorArrives s1 m k
    | none => s1
  let s3 := streamingEnds s2 compileOutcome
  healCheck s3

/-- Consecutive failing cycles: the first is the observed generation; while
the auto-heal effect keeps issuing fixes, each issued fix streams and fails
the same way.  Returns the final state and the number of fix requests
issued. -/
def failLoop (apiErr : Option (String × ErrKind)) (compileOutcome : Option String) :
    Nat → PageState → PageState × Nat
  | 0, s => (s, 0)
  | fuel + 1, s =>
    let r := generationCycle apiErr compileOutcome s
    if r.2 then
      let r2 := failLoop apiErr compileOutcome fuel r.1
      (r2.1, r2.2 + 1)
    else (r.1, 0)

/-! ### Quick-fix line replacement
(`/api/quick-fix` route, `src/unnamed/part_007` lines 188-215). -/

/-- One fix entry of the model response (`lineNumber` is a JSON number,
possibly out of range). -/
structure QFix where
  lineNumber : Int
  fixedLine : String
deriving DecidableEq

/-- In-range test: `lineIndex >= 0 && lineIndex < fixedLines.length` for
`lineIndex = lineNumber - 1`. -/
def qfixInRange (n : Nat) (f : QFix) : Bool :=
  decide (0 ≤ f.lineNumber - 1) && decide (f.lineNumber - 1 < (n : Int))

/-- The application loop (`part_007` 190-199): in-range entries overwrite
their line and are recorded, others are skipped. -/
def applyFixesGo (lines : List String) (changed : List Int) :
    List QFix → List String × List Int
  | [] => (lines, changed)
  | f :: fs =>
    if qfixInRange lines.length f then
      applyFixesGo (lines.set (f.lineNumber - 1).toNat f.fixedLine)
        (changed ++ [f.lineNumber]) fs
    else applyFixesGo lines changed fs

/-- `fixedLines`/`changedLineNumbers` of the quick-fix route applied to the
split source lines (`part_007` 188-205). -/
def applyFixes (fixes : List QFix) (codeLines : List String) :
    List String × List Int :=
  applyFixesGo codeLines [] fixes

/-! ### In-memory rate limiter
(`src/src/lib/rate-limiter.ts` lines 10-88).  Times are milliseconds; the
JavaScript signed subtractions compare identically to truncated `Nat`
subtraction in both guards (`now - first > WINDOW_MS` is false and
`now - last < COOLDOWN_MS` is true whenever the JavaScript difference is
negative). -/

/-- `WINDOW_MS`. -/
def windowMs : Nat := 60 * 1000

/-- `MAX_REQUESTS_PER_WINDOW`. -/
def maxRequestsPerWindow : Nat := 10

/-- `COOLDOWN_MS`. -/
def cooldownMs : Nat := 5000

/-- One `rateLimits` map entry (`rate-limiter.ts` 4-8). -/
structure RLEntry where
  count : Nat
  firstRequest : Nat
  lastRequest : Nat
deriving DecidableEq

/-- `RateLimitResult` (`rate-limiter.ts` 17-22); `remaining` is kept as a
JavaScript signed number. -/
structure RateLimitResult where
  allowed : Bool
  remaining : Int
  resetIn : Int
  reason : Option String
deriving DecidableEq

/-- `Math.ceil(x / 1000)` for natural `x`. -/
def ceilDiv1000 (x : Nat) : Nat :=
  (x + 999) / 1000

/-- `checkRateLimit` (`rate-limiter.ts` 24-88) for one key: takes the clock
reading and the current map entry, returns the result and the stored
entry. -/
def checkRateLimit (now : Nat) (entry : Option RLEntry) :
    RateLimitResult × RLEntry :=
  match entry with
  | none =>
    ({ allowed := true,
       remaining := (maxRequestsPerWindow : Int) - 1,
       resetIn := (windowMs : Int),
       reason := none },
     { count := 1, firstRequest := now, lastRequest := now })
  | some e =>
    if now - e.firstRequest > windowMs then
      ({ allowed := true,
         remaining := (maxRequestsPerWindow : Int) - 1,
         resetIn := (windowMs : Int),
         reason := none },
       { count := 1, firstRequest := now, lastRequest := now })
    else if now - e.lastRequest < cooldownMs then
      ({ allowed := false,
         remaining := (maxRequestsPerWindow : Int) - (e.count : Int),
         resetIn := (cooldownMs : Int) - ((now - e.lastRequest : Nat) : Int),
         reason := some ("Cooldown: wait " ++
           toString (ceilDiv1000 (cooldownMs - (now - e.lastRequest))) ++ "s") },
       e)
    else if e.count ≥ maxRequestsPerWindow then
      ({ allowed := false,
         remaining := 0,
         resetIn := (windowMs : Int) - ((now - e.firstRequest : Nat) : Int),
         reason := some ("Rate limit exceeded: " ++ toString e.count ++ "/" ++
           toString maxRequestsPerWindow ++ " requests. Reset in " ++
           toString (ceilDiv1000 (windowMs - (now - e.firstRequest))) ++ "s") },
       e)
    else
      ({ allowed := true,
         remaining := (maxRequestsPerWindow : Int) - ((e.count : Int) + 1),
         resetIn := (windowMs : Int) - ((now - e.firstRequest : Nat) : Int),
         reason := none },
       { count := e.count + 1, firstRequest := e.firstRequest,
         lastRequest := now })

/-- A sequence of calls for one key: each call feeds the stored entry of the
previous one.  Returns the per-call results paired with the entry stored
after each call. -/
def rlRun (times : List Nat) (st : Option RLEntry) :
    List (RateLimitResult × RLEntry) :=
  match times with
  | [] => []
  | t :: ts =>
    let r := checkRateLimit t st
    r :: rlRun ts (some r.2)

/-- Number of allowed calls attributed to the window that started at `w`. -/
def allowedInWindow (w : Nat) (steps : List (RateLimitResult × RLEntry)) : Nat :=
  (steps.filter (fun p => p.1.allowed && p.2.firstRequest == w)).length

/-! ### Auxiliary definitions for concrete instances and comparisons -/

/-- Modelled from the spec: the last *top-level* `const`/`function`
declaration.  The spec words the fallback of the export-locating step as
scanning for the last top-level declaration; this definition follows those
words (a declaration line at brace depth 0) and is compared against the
source-derived `lastDeclName`. -/
def topDecls (depth : Int) : List String → List String
  | [] => []
  | l :: ls =>
    (if depth = 0 then
      match matchDeclAt (jsTrim l).data with
      | some (n, _) => [n]
      | none => []
     else []) ++ topDecls (depth + braceDelta l) ls

/-- Modelled from the spec: name of the last top-level `const`/`function`
declaration of the code. -/
def lastTopLevelDeclName (code : String) : Option String :=
  (topDecls 0 (splitNL code)).getLast?

/-- Modelled from the spec: the external Babel transpiler failing on the
prepared one-line source `const MyAnimation = ;` with an unexpected-token
error located at line 1, column 20 of the string it was given (a transpiler
reports positions in its own input), and succeeding elsewhere. -/
def babelOnBadAssign : String → Except JsThrown String := fun s =>
  if s = "const MyAnimation = ;" then
    Except.error (JsThrown.errObj "Unexpected token (1:20)"
      (some { line := 1, column := some 20 }) none)
  else Except.ok s

/-- A source whose deliberate syntax error sits on line 2, below one leading
line holding an import. -/
def c2CexCode : String :=
  "import React from \"react\";\nconst MyAnimation = ;"

/-- Transpiled code whose last declaration keyword occurrence is the nested
`const bar`, while the last top-level declaration is `Foo`. -/
def c7NestedCode : String :=
  "const Foo = () => \x7b\n  const bar = 1;\n  return bar;\n\x7d;"

/-- Transpiled code defining a single component and never returning it. -/
def c7FooCode : String :=
  "const Foo = () => \x7b\n  return 42;\n\x7d;"

/-- Modelled from the spec: a transpilation that leaves already-plain
JavaScript unchanged (the Babel step is the identity on code without JSX or
type annotations). -/
def transpileId : String → Except JsThrown String := fun s => Except.ok s

/-- The percent argument of a progress callback. -/
def progressOf : GenCallback → Option Nat
  | GenCallback.progressCb p _ _ => some p
  | _ => none

/-- The percent values delivered by a callback sequence, in order. -/
def progressValues (cbs : List GenCallback) : List Nat :=
  cbs.filterMap progressOf

/-- The estimate the controller computes for the bare prompt `hi` on the
plain path. -/
def c6Est : Nat := estimateCodeLength (mkEnhancedPrompt "hi")

/-- First delta of the decreasing-progress stream: 33 numbered lines and a
partial closing fence. -/
def c6Delta1 : String := String.join (List.replicate 33 "x\n") ++ "``"

/-- Second delta: the backtick completing the closing fence. -/
def c6Delta2 : String := "`"

/-- Identity sanitizer stand-in for the external `extractComponentCode`. -/
def sanitizeId : String → String := fun s => s

/-- Always-valid stand-in for the external `validateGptResponse`. -/
def validateNone : String → Option String := fun _ => none

/-- The initial page state: auto-heal enabled, agent idle, no errors. -/
def pageInit : PageState :=
  { autoHealEnabled := true
    isStreaming := false
    isCompiling := false
    autoFixCount := 0
    agentStatus := AgentStatus.idle
    generationError := none
    compileError := none
    justFinished := false }

/-- Remaining allowed calls a window identified by its start `w` can still
absorb, given the stored entry. -/
def windowSlack (w : Nat) (st : Option RLEntry) : Nat :=
  match st with
  | some e =>
    if e.firstRequest = w then maxRequestsPerWindow - e.count
    else maxRequestsPerWindow
  | none => maxRequestsPerWindow

/-- Well-formedness of a stored entry relative to the upcoming call times:
count within `[1, MAX]`, ordered timestamps, and no call earlier than the
stored `lastRequest`. -/
def rlWf (st : Option RLEntry) (times : List Nat) : Prop :=
  ∀ e, st = some e →
    1 ≤ e.count ∧ e.count ≤ maxRequestsPerWindow ∧
    e.firstRequest ≤ e.lastRequest ∧ ∀ t ∈ times, e.lastRequest ≤ t

/-! ## Helper lemmas -/

theorem containsStr_of_data_eq {s sub : String} {a b : List Char}
    (h : s.data = a ++ sub.data ++ b) : containsStr s sub :=
  ⟨a, b, h⟩

theorem containsStr_append_left (r : String) {s sub : String}
    (h : containsStr s sub) : containsStr (r ++ s) sub := by
  obtain ⟨a, b, hab⟩ := h
  exact ⟨r.data ++ a, b, by simp [String.data_append, hab]⟩

theorem containsStr_append_right (r : String) {s sub : String}
    (h : containsStr s sub) : containsStr (s ++ r) sub := by
  obtain ⟨a, b, hab⟩ := h
  exact ⟨a, b ++ r.data, by simp [String.data_append, hab]⟩

theorem containsStr_refl (s : String) : containsStr s s :=
  ⟨[], [], by simp⟩

theorem mem_joinNL {x : String} : ∀ {l : List String}, x ∈ l →
    containsStr (joinNL l) x := by
  intro l
  induction l with
  | nil => intro h; cases h
  | cons a t ih =>
    intro hmem
    cases t with
    | nil =>
      have hx : x = a := by
        rcases List.mem_singleton.mp hmem with h
        exact h
      subst hx
      exact containsStr_refl x
    | cons b u =>
      rcases List.mem_cons.mp hmem with h | h
      · subst h
        show containsStr (x ++ "\n" ++ joinNL (b :: u)) x
        exact containsStr_append_right _
          (containsStr_append_right _ (containsStr_refl x))
      · show containsStr (a ++ "\n" ++ joinNL (b :: u)) x
        have := ih h
        rw [String.append_assoc]
        exact containsStr_append_left _ (containsStr_append_left _ this)

theorem mem_numberLines : ∀ (ls : List String) (k i : Nat) (h : i < ls.length),
    (toString (k + i) ++ ": " ++ ls[i]) ∈ numberLines k ls := by
  intro ls
  induction ls with
  | nil => intro k i h; simp at h
  | cons a t ih =>
    intro k i h
    cases i with
    | zero => simp [numberLines]
    | succ j =>
      have hj : j < t.length := by simpa using h
      have := ih (k + 1) j hj
      have harith : k + 1 + j = k + (j + 1) := by omega
      rw [harith] at this
      simp only [numberLines, List.getElem_cons_succ]
      exact List.mem_cons_of_mem _ this

/-! ## C1 -/

/-- C1: for every input string and every behavior of the external
transpilation and construction steps, `compileCode` returns a
`CompilationResult` in which exactly one of the component and the error is
non-null; the embedding is a total function, so no exception escapes. -/
theorem compileCode_total (transpile : String → Except JsThrown String)
    (construct : String → Except JsThrown JsValue) (code : String) :
    ((compileCode transpile construct code).Component = none ∧
      (compileCode transpile construct code).error ≠ none) ∨
    ((compileCode transpile construct code).Component ≠ none ∧
      (compileCode transpile construct code).error = none) := by
  by_cases h1 : jsTrim code = ""
  · left; simp [compileCode, h1]
  · rcases htr : transpile (prepareCode code) with e | t
    · left; simp [compileCode, h1, htr]
    · by_cases h2 : t = ""
      · left; simp [compileCode, h1, htr, h2]
      · rcases hc : construct (appendReturn t) with e2 | v
        · left; simp [compileCode, h1, htr, h2, hc]
        · by_cases h3 : v = JsValue.jsFunc
          · right; simp [compileCode, h1, htr, h2, hc, h3]
          · left; simp [compileCode, h1, htr, h2, hc, h3]

/-! ## C4 -/

/-- C5 counterexample: a `start` call issued while a previous request is in
flight (the committed `isLoading` flag is true and its controller is
registered) returns through the guard: the previous request is neither
cancelled nor superseded — the new call is dropped.  The claim that every
such call cancels the previous request and supersedes it is therefore
false. -/
theorem runGeneration_inflight_drop_cex :
    runGenerationStart "fix it" true (some 0) 1 = (some 0, StartOutcome.dropped) ∧
    StartOutcome.dropped ≠ StartOutcome.superseded 0 1 := by
  constructor
  · rfl
  · intro h; cases h

/-- C5 (amended): a `start` call made while `isLoading` is true is dropped
with the previous controller untouched; when the guard passes and a previous
controller is still registered, it is aborted first and the new request
supersedes it; and the callbacks of an aborted request are a function of the
events read before the abort alone, so no stream event of a superseded
request past the abort point produces an `onCodeGenerated` callback. -/
theorem runGeneration_single_flight :
    (∀ (p : String) (act : Option Nat) (idNew : Nat),
      runGenerationStart p true act idNew = (act, StartOutcome.dropped)) ∧
    (∀ (p : String) (old idNew : Nat), jsTrim p ≠ "" →
      runGenerationStart p false (some old) idNew =
        (some idNew, StartOutcome.superseded old idNew)) ∧
    (∀ (sanitize : String → String) (validate : String → Option String)
      (estTotal k : Nat) (evts evts' : List StreamEvt),
      evts.take k = evts'.take k →
      runGenerationStream sanitize validate estTotal evts (some k) =
        runGenerationStream sanitize validate estTotal evts' (some k)) := by
  refine ⟨?_, ?_, ?_⟩
  · intro p act idNew
    simp [runGenerationStart]
  · intro p old idNew hp
    simp [runGenerationStart, hp]
  · intro sanitize validate estTotal k evts evts' h
    simp only [runGenerationStream, h]

/-- C5 witness: the amended theorem applied at concrete inputs, discharging
each hypothesis there. -/
theorem runGeneration_single_flight_witness :
    runGenerationStart "spin the cube" false (some 7) 8 =
      (some 8, StartOutcome.superseded 7 8) ∧
    runGenerationStream sanitizeId validateNone 400
        [StreamEvt.textDelta "a", StreamEvt.textDelta "b"] (some 1) =
      runGenerationStream sanitizeId validateNone 400
        [StreamEvt.textDelta "a", StreamEvt.textDelta "zzz"] (some 1) :=
  ⟨runGeneration_single_flight.2.1 "spin the cube" 7 8 (by decide),
   runGeneration_single_flight.2.2 sanitizeId validateNone 400 1
     [StreamEvt.textDelta "a", StreamEvt.textDelta "b"]
     [StreamEvt.textDelta "a", StreamEvt.textDelta "zzz"] (by decide)⟩

/-! ## C2 -/

theorem mem_numberLines_getD : ∀ (ls : List String) (k i : Nat), i < ls.length →
    (toString (k + i) ++ ": " ++ ls.getD i "") ∈ numberLines k ls := by
  intro ls
  induction ls with
  | nil => intro k i h; simp at h
  | cons a t ih =>
    intro k i h
    cases i with
    | zero => simp [numberLines]
    | succ j =>
      have hj : j < t.length := by simpa using h
      have hmem := ih (k + 1) j hj
      have harith : k + 1 + j = k + (j + 1) := by omega
      rw [harith] at hmem
      simp only [numberLines, List.getD_cons_succ]
      exact List.mem_cons_of_mem _ hmem

theorem getD_take_drop (l : List String) (s m p : Nat) (hp : p < m)
    (_hq : s + p < l.length) :
    ((l.drop s).take m).getD p "" = l.getD (s + p) "" := by
  rw [List.getD_eq_getElem?_getD, List.getD_eq_getElem?_getD,
    List.getElem?_take, if_pos hp, List.getElem?_drop]

theorem slice_window_contains (lines : List String) (L i : Nat)
    (hi1 : 1 ≤ i) (hlow : L - 2 ≤ i) (hhigh : i ≤ L + 2)
    (hn : i ≤ lines.length) :
    containsStr
      (joinNL (numberLines (L - 1 - 2 + 1)
        ((lines.drop (L - 1 - 2)).take (min lines.length (L + 2) - (L - 1 - 2)))))
      (toString i ++ ": " ++ lines.getD (i - 1) "") := by
  have hp : i - 1 - (L - 1 - 2) <
      ((lines.drop (L - 1 - 2)).take
        (min lines.length (L + 2) - (L - 1 - 2))).length := by
    simp only [List.length_take, List.length_drop]
    omega
  have hmem := mem_numberLines_getD _ (L - 1 - 2 + 1) (i - 1 - (L - 1 - 2)) hp
  have harith : L - 1 - 2 + 1 + (i - 1 - (L - 1 - 2)) = i := by omega
  have hTd : ((lines.drop (L - 1 - 2)).take
      (min lines.length (L + 2) - (L - 1 - 2))).getD (i - 1 - (L - 1 - 2)) "" =
      lines.getD (i - 1) "" := by
    rw [getD_take_drop _ _ _ _ (by omega) (by omega)]
    congr 1
    omega
  rw [harith, hTd] at hmem
  exact mem_joinNL hmem

theorem formatContext_contains (src : String) (L i : Nat)
    (hi1 : 1 ≤ i) (hlow : L - 2 ≤ i) (hhigh : i ≤ L + 2) (hL : 1 ≤ L)
    (hn : i ≤ (splitNL src).length) :
    containsStr (formatContext src L)
      (toString i ++ ": " ++ (splitNL src).getD (i - 1) "") := by
  have hstop : L - 1 + 2 + 1 = L + 2 := by omega
  simp only [formatContext, hstop]
  exact slice_window_contains (splitNL src) L i hi1 hlow hhigh hn

/-- C2 (amended): when the transpiler step fails with a located error, the
compiler result error string contains the underlying message, the reported
1-based line and column, and the window of up to two lines on each side of
the reported line, each prefixed with its 1-based number — all relative to
the *prepared* source (imports blanked, exports localized, then trimmed).
The reported line number is the position of the erroring line in the
prepared source; whenever line N of the original source still sits at index
N of the prepared source (in particular when the source has no leading
blank or import lines), the error string therefore carries line N of the
original with the number N. -/
theorem compileCode_transpile_error_diagnostics
    (transpile : String → Except JsThrown String)
    (construct : String → Except JsThrown JsValue)
    (code msg : String) (L C : Nat) (stack : Option String)
    (hne : jsTrim code ≠ "") (hL : 1 ≤ L)
    (ht : transpile (prepareCode code) =
      Except.error (JsThrown.errObj msg
        (some { line := L, column := some C }) stack)) :
    ∃ E, (compileCode transpile construct code).error = some E ∧
      containsStr E msg ∧
      containsStr E (" (line " ++ toString L ++ ", col " ++ toString C ++ ")") ∧
      (∀ i, 1 ≤ i → L - 2 ≤ i → i ≤ L + 2 →
        i ≤ (splitNL (prepareCode code)).length →
        containsStr E
          (toString i ++ ": " ++ (splitNL (prepareCode code)).getD (i - 1) "")) ∧
      (L ≤ (splitNL (prepareCode code)).length →
        (splitNL code).getD (L - 1) "" =
          (splitNL (prepareCode code)).getD (L - 1) "" →
        containsStr E (toString L ++ ": " ++ (splitNL code).getD (L - 1) "")) := by
  have hL0 : ¬ L = 0 := by omega
  refine ⟨msg ++ " (line " ++ toString L ++ ", col " ++ toString C ++ ")\n" ++
    formatContext (prepareCode code) L, ?_, ?_, ?_, ?_, ?_⟩
  · simp [compileCode, hne, ht, formatBabelError, hL0]
  · exact containsStr_append_right _ (containsStr_append_right _
      (containsStr_append_right _ (containsStr_append_right _
        (containsStr_append_right _ (containsStr_append_right _
          (containsStr_refl msg))))))
  · refine ⟨msg.data, '\n' :: (formatContext (prepareCode code) L).data, ?_⟩
    have h1 : (")\n" : String).data = [')', '\n'] := rfl
    have h2 : (")" : String).data = [')'] := rfl
    simp [String.data_append, h1, h2]
  · intro i hi1 hlow hhigh hn
    exact containsStr_append_left _
      (formatContext_contains (prepareCode code) L i hi1 hlow hhigh hL hn)
  · intro hLn heq
    rw [heq]
    exact containsStr_append_left _
      (formatContext_contains (prepareCode code) L L hL (by omega) (by omega) hL hLn)

/-- C2 witness: the amended theorem applied at a concrete failing source
with the syntax error on line 1, discharging each hypothesis there. -/
theorem compileCode_transpile_error_diagnostics_witness :
    ∃ E, (compileCode babelOnBadAssign jsEvalBody "const MyAnimation = ;").error = some E ∧
      containsStr E "Unexpected token (1:20)" ∧
      containsStr E (" (line " ++ toString 1 ++ ", col " ++ toString 20 ++ ")") ∧
      (∀ i, 1 ≤ i → 1 - 2 ≤ i → i ≤ 1 + 2 →
        i ≤ (splitNL (prepareCode "const MyAnimation = ;")).length →
        containsStr E (toString i ++ ": " ++
          (splitNL (prepareCode "const MyAnimation = ;")).getD (i - 1) "")) ∧
      (1 ≤ (splitNL (prepareCode "const MyAnimation = ;")).length →
        (splitNL "const MyAnimation = ;").getD (1 - 1) "" =
          (splitNL (prepareCode "const MyAnimation = ;")).getD (1 - 1) "" →
        containsStr E (toString 1 ++ ": " ++
          (splitNL "const MyAnimation = ;").getD (1 - 1) "")) :=
  compileCode_transpile_error_diagnostics babelOnBadAssign jsEvalBody
    "const MyAnimation = ;" "Unexpected token (1:20)" 1 20 none
    (by decide) (by decide) rfl

/-- C2 counterexample: a deliberate syntax error on line 2 of the input,
below one import line.  The preparation step blanks the import line and the
final `trim` removes it, so the transpiler sees the erroring line as line 1
of its input and the result error string reports `line 1`, not `line 2`:
the reported number does not equal the 1-based input line of the deliberate
error.  The erroring line content is carried, but under the number 1. -/
theorem compileCode_line_number_cex :
    (splitNL c2CexCode).getD 1 "" = "const MyAnimation = ;" ∧
    (compileCode babelOnBadAssign jsEvalBody c2CexCode).error =
      some "Unexpected token (1:20) (line 1, col 20)\n1: const MyAnimation = ;" ∧
    strContainsB
      "Unexpected token (1:20) (line 1, col 20)\n1: const MyAnimation = ;"
      "line 2" = false := by
  refine ⟨by decide, by decide, by decide⟩

/-! ## C3 -/

theorem healCheck_guard_true (s : PageState) (hg : healGuard s = true) :
    healCheck s =
      (if !s.isStreaming ∧ s.agentStatus = AgentStatus.fixing then
        { s with agentStatus := AgentStatus.idle }
       else s, false) := by
  unfold healCheck
  rw [if_pos hg]

theorem healCheck_fires (s : PageState) (m : String)
    (hg : healGuard s = false) (hce : currentError s = some m)
    (hjf : s.justFinished = true) :
    healCheck s =
      ({ s with
         justFinished := false,
         agentStatus := AgentStatus.fixing,
         autoFixCount := s.autoFixCount + 1 }, true) := by
  unfold healCheck
  simp only [hg, Bool.false_eq_true, if_false, hce, hjf, if_true]

theorem healCheck_stale (s : PageState) (m : String)
    (hg : healGuard s = false) (hce : currentError s = some m)
    (hjf : s.justFinished = false) :
    healCheck s = (s, false) := by
  unfold healCheck
  simp only [hg, Bool.false_eq_true, if_false, hce, hjf]

theorem healCheck_clean (s : PageState)
    (hg : healGuard s = false) (hce : currentError s = none) :
    healCheck s =
      (if !s.isStreaming then { s with agentStatus := AgentStatus.idle } else s,
       false) := by
  unfold healCheck
  simp only [hg, Bool.false_eq_true, if_false, hce]

theorem healGuard_false_count (s : PageState) (hg : healGuard s = false) :
    s.autoFixCount < maxAutoRetries := by
  unfold healGuard at hg
  simp only [Bool.or_eq_false_iff, decide_eq_false_iff_not, not_le] at hg
  exact hg.2

theorem healCheck_issued_spec (s : PageState) (h : (healCheck s).2 = true) :
    s.autoFixCount < maxAutoRetries ∧
    (healCheck s).1.autoFixCount = s.autoFixCount + 1 ∧
    (healCheck s).1.agentStatus = AgentStatus.fixing := by
  by_cases hg : healGuard s = true
  · rw [healCheck_guard_true s hg] at h
    simp at h
  · have hg2 : healGuard s = false := Bool.eq_false_iff.mpr hg
    rcases hce : currentError s with _ | m
    · rw [healCheck_clean s hg2 hce] at h
      simp at h
    · by_cases hjf : s.justFinished = true
      · rw [healCheck_fires s m hg2 hce hjf]
        exact ⟨healGuard_false_count s hg2, rfl, rfl⟩
      · have hjf2 : s.justFinished = false := Bool.eq_false_iff.mpr hjf
        rw [healCheck_stale s m hg2 hce hjf2] at h
        simp at h

theorem healCheck_not_issued (s : PageState) (h : (healCheck s).2 = false) :
    (healCheck s).1.autoFixCount = s.autoFixCount := by
  by_cases hg : healGuard s = true
  · rw [healCheck_guard_true s hg]
    split <;> rfl
  · have hg2 : healGuard s = false := Bool.eq_false_iff.mpr hg
    rcases hce : currentError s with _ | m
    · rw [healCheck_clean s hg2 hce]
      split <;> rfl
    · by_cases hjf : s.justFinished = true
      · rw [healCheck_fires s m hg2 hce hjf] at h
        simp at h
      · have hjf2 : s.justFinished = false := Bool.eq_false_iff.mpr hjf
        rw [healCheck_stale s m hg2 hce hjf2]

theorem healCheck_preserves_errors (s : PageState) :
    (healCheck s).1.generationError = s.generationError ∧
    (healCheck s).1.compileError = s.compileError := by
  by_cases hg : healGuard s = true
  · rw [healCheck_guard_true s hg]
    constructor <;> (split <;> rfl)
  · have hg2 : healGuard s = false := Bool.eq_false_iff.mpr hg
    rcases hce : currentError s with _ | m
    · rw [healCheck_clean s hg2 hce]
      constructor <;> (split <;> rfl)
    · by_cases hjf : s.justFinished = true
      · rw [healCheck_fires s m hg2 hce hjf]
        exact ⟨rfl, rfl⟩
      · have hjf2 : s.justFinished = false := Bool.eq_false_iff.mpr hjf
        rw [healCheck_stale s m hg2 hce hjf2]
        exact ⟨rfl, rfl⟩

theorem streamingStarts_eq (s : PageState) :
    streamingStarts s =
      { s with
        isStreaming := true,
        generationError := none,
        agentStatus := AgentStatus.monitoring,
        autoFixCount := 0 } := by
  rcases s with ⟨a, b, c, d, e, f, g, j⟩
  cases e <;> rfl

theorem streamingStarts_count (s : PageState) :
    (streamingStarts s).autoFixCount = 0 := by
  rw [streamingStarts_eq]

theorem generationCycle_eq (apiErr : Option (String × ErrKind))
    (c : Option String) (s : PageState) :
    generationCycle apiErr c s = healCheck
      { autoHealEnabled := s.autoHealEnabled
        isStreaming := false
        isCompiling := s.isCompiling
        autoFixCount := 0
        agentStatus := AgentStatus.monitoring
        generationError := apiErr
        compileError := c
        justFinished := true } := by
  cases apiErr with
  | none =>
    simp only [generationCycle, streamingStarts_eq, streamingEnds]
  | some p =>
    cases p
    simp only [generationCycle, streamingStarts_eq, errorArrives, streamingEnds]

theorem generationCycle_fires (m : String) (hm : ¬ m = "") (s : PageState)
    (hah : s.autoHealEnabled = true) (hic : s.isCompiling = false) :
    (generationCycle none (some m) s).2 = true ∧
    (generationCycle none (some m) s).1.autoHealEnabled = true ∧
    (generationCycle none (some m) s).1.isCompiling = false := by
  rw [generationCycle_eq]
  have hg : healGuard
      { autoHealEnabled := s.autoHealEnabled
        isStreaming := false
        isCompiling := s.isCompiling
        autoFixCount := 0
        agentStatus := AgentStatus.monitoring
        generationError := none
        compileError := some m
        justFinished := true } = false := by
    unfold healGuard
    simp [hah, hic, maxAutoRetries]
  have hce : currentError
      { autoHealEnabled := s.autoHealEnabled
        isStreaming := false
        isCompiling := s.isCompiling
        autoFixCount := 0
        agentStatus := AgentStatus.monitoring
        generationError := none
        compileError := some m
        justFinished := true } = some m := by
    unfold currentError
    simp [hm]
  rw [healCheck_fires _ m hg hce rfl]
  exact ⟨rfl, hah, hic⟩

theorem failLoop_unbounded (m : String) (hm : ¬ m = "") :
    ∀ (n : Nat) (s : PageState), s.autoHealEnabled = true →
      s.isCompiling = false → (failLoop none (some m) n s).2 = n := by
  intro n
  induction n with
  | zero => intro s _ _; simp [failLoop]
  | succ k ih =>
    intro s hah hic
    obtain ⟨hiss, hah2, hic2⟩ := generationCycle_fires m hm s hah hic
    rw [failLoop]
    simp only [hiss, if_true]
    rw [ih _ hah2 hic2]

/-- C3: the claim (and the spec) require the auto-heal loop to stop after
`MAX_AUTO_RETRIES = 2` automatic fixes, with the counter reset only at a
fresh non-fix generation — but the code resets the counter during *every*
stream: the `isStreaming` effect lists `agentStatus` in its dependency
array, so after its first run flips the status `fixing → monitoring` it
runs again with `isStreaming` still true and executes `setAutoFixCount(0)`.
Evaluating the embedded page machine: after any streaming start the retry
counter is 0, so with auto-heal enabled and every generation ending in the
same nonempty compile error the loop issues one fix per failing cycle for
every number of cycles — in particular `MAX_AUTO_RETRIES + 1 = 3`
consecutive failing cycles from the initial page state issue 3 fix
requests, and the `autoFixCount >= MAX_AUTO_RETRIES` guard never stops the
loop.  The bound the claim states is false of the program: the loop
retries unboundedly, which the spec explicitly forbids. -/
theorem autoHeal_retry_unbounded :
    (∀ s : PageState, (streamingStarts s).autoFixCount = 0) ∧
    (∀ n : Nat, (failLoop none (some "SyntaxError: x") n pageInit).2 = n) ∧
    maxAutoRetries <
      (failLoop none (some "SyntaxError: x") (maxAutoRetries + 1) pageInit).2 := by
  have hall : ∀ n : Nat,
      (failLoop none (some "SyntaxError: x") n pageInit).2 = n :=
    fun n => failLoop_unbounded "SyntaxError: x" (by decide) n pageInit rfl rfl
  refine ⟨streamingStarts_count, hall, ?_⟩
  rw [hall (maxAutoRetries + 1)]
  omega

/-! ## C8 -/

theorem healCheck_snd_congr (s t : PageState)
    (hg : healGuard s = healGuard t)
    (hce : (currentError s).isSome = (currentError t).isSome)
    (hjf : s.justFinished = t.justFinished) :
    (healCheck s).2 = (healCheck t).2 := by
  by_cases h1 : healGuard s = true
  · rw [healCheck_guard_true s h1, healCheck_guard_true t (hg.symm.trans h1)]
  · have h1s : healGuard s = false := Bool.eq_false_iff.mpr h1
    have h1t : healGuard t = false := hg.symm.trans h1s
    rcases hs : currentError s with _ | m
    · rcases ht2 : currentError t with _ | m2
      · rw [healCheck_clean s h1s hs, healCheck_clean t h1t ht2]
      · rw [hs, ht2] at hce
        simp at hce
    · rcases ht2 : currentError t with _ | m2
      · rw [hs, ht2] at hce
        simp at hce
      · by_cases hj : s.justFinished = true
        · rw [healCheck_fires s m h1s hs hj,
            healCheck_fires t m2 h1t ht2 (hjf.symm.trans hj)]
        · have hjs : s.justFinished = false := Bool.eq_false_iff.mpr hj
          rw [healCheck_stale s m h1s hs hjs,
            healCheck_stale t m2 h1t ht2 (hjf.symm.trans hjs)]

/-- C8 counterexample: a generation whose outcome is a validation error
(kind `validation`, nonempty message) right after the stream finishes, at
the initial page state: the auto-heal effect *does* issue an automatic fix
request, because its error check reads `generationError?.message || error`
without inspecting the error kind.  The claim that no automatic fix request
is ever triggered for a validation-type error is therefore false. -/
theorem validation_triggers_fix_cex :
    (generationCycle
      (some ("Your request does not describe renderable visual content",
        ErrKind.validation)) none pageInit).2 = true ∧
    (generationCycle
      (some ("Your request does not describe renderable visual content",
        ErrKind.validation)) none pageInit).1.generationError =
      some ("Your request does not describe renderable visual content",
        ErrKind.validation) := by
  exact ⟨by decide, by decide⟩

/-- C8 (amended): a validation error is surfaced immediately (it stays in
the page state as a validation-kind generation error), but the auto-heal
loop does not special-case it: the fix decision after a finished generation
is identical for a validation-kind and an api-kind error with the same
message — the loop reads only the message. -/
theorem validation_error_kind_blind (s : PageState) (m : String)
    (k : ErrKind) (c : Option String) :
    (generationCycle (some (m, ErrKind.validation)) c s).2 =
      (generationCycle (some (m, ErrKind.api)) c s).2 ∧
    (generationCycle (some (m, k)) c s).1.generationError = some (m, k) := by
  constructor
  · rw [generationCycle_eq, generationCycle_eq]
    exact healCheck_snd_congr _ _ rfl rfl rfl
  · rw [generationCycle_eq]
    exact (healCheck_preserves_errors _).1

/-! ## C6 -/

theorem progressPercent_mono (e n1 n2 : Nat) (h : n1 ≤ n2) :
    progressPercent e n1 ≤ progressPercent e n2 := by
  unfold progressPercent jsRound100
  exact min_le_min (le_refl 95) (Nat.div_le_div_right (by omega))

theorem progressPercent_le_95 (e n : Nat) : progressPercent e n ≤ 95 :=
  Nat.min_le_left 95 _

theorem runStream_progress_le (estTotal : Nat) : ∀ (evts : List StreamEvt)
    (acc : String) (p : Nat),
    p ∈ progressValues (runStreamEvents estTotal acc evts).2.1 → p ≤ 95 := by
  intro evts
  induction evts with
  | nil =>
    intro acc p hp
    simp [runStreamEvents, progressValues] at hp
  | cons e rest ih =>
    intro acc p hp
    cases e with
    | textDelta d =>
      simp only [runStreamEvents, progressValues, List.filterMap_cons,
        progressOf] at hp
      rcases List.mem_cons.mp hp with h | h
      · subst h
        exact progressPercent_le_95 _ _
      · exact ih (acc ++ d) p h
    | errorEvt m =>
      simp [runStreamEvents, progressValues] at hp
    | reasoningStart =>
      simp only [runStreamEvents] at hp
      exact ih acc p hp
    | textStart =>
      simp only [runStreamEvents] at hp
      exact ih acc p hp
    | unknownEvt =>
      simp only [runStreamEvents] at hp
      exact ih acc p hp

theorem runStream_deltas_no_error (estTotal : Nat) : ∀ (ds : List String)
    (acc : String),
    (runStreamEvents estTotal acc (ds.map StreamEvt.textDelta)).2.2 = none := by
  intro ds
  induction ds with
  | nil => intro acc; rfl
  | cons d rest ih =>
    intro acc
    simp only [List.map_cons, runStreamEvents]
    exact ih (acc ++ d)

theorem runGenerationStream_final_100 (sanitize : String → String)
    (validate : String → Option String) (estTotal : Nat) (ds : List String) :
    (progressValues (runGenerationStream sanitize validate estTotal
      (ds.map StreamEvt.textDelta) none)).getLast? = some 100 := by
  have hne := runStream_deltas_no_error estTotal ds ""
  simp only [runGenerationStream, hne]
  simp only [progressValues, List.filterMap_append, List.filterMap_cons,
    progressOf]
  rcases validate (sanitize (stripFences
      (runStreamEvents estTotal "" (ds.map StreamEvt.textDelta)).1)) with _ | v
  · simp [progressOf]
  · simp [progressOf]

set_option maxRecDepth 100000 in
/-- C6 counterexample: within one streaming generation — the estimate is the
one the controller computes for the prompt `hi` on the plain path — the
percents reported on two consecutive text-deltas are 9 then 8: the second
delta completes a trailing code fence, the display strip then removes the
fence line, the line count drops from 34 to 33 and the reported percent
decreases.  The claim that the percent never decreases from one text-delta
to the next is therefore false. -/
theorem progress_decrease_cex :
    c6Est = 400 ∧
    progressValues (runStreamEvents c6Est ""
      [StreamEvt.textDelta c6Delta1, StreamEvt.textDelta c6Delta2]).2.1 =
      [9, 8] ∧
    (8 : Nat) < 9 := by
  refine ⟨by decide, by decide, by decide⟩

/-- C6 (amended): the reported percent is `min 95 (round (100·n/e))` of the
stripped line count `n`, so it is monotone in the stripped line count and at
most 95 on every text-delta, and the finalization report is exactly 100
regardless of any ratio; but because completing a trailing code fence can
lower the stripped line count, the percent can decrease from one text-delta
to the next (see the counterexample). -/
theorem progress_percent_spec :
    (∀ e n1 n2 : Nat, 0 < e → n1 ≤ n2 →
      progressPercent e n1 ≤ progressPercent e n2) ∧
    (∀ (estTotal : Nat) (evts : List StreamEvt) (acc : String) (p : Nat),
      p ∈ progressValues (runStreamEvents estTotal acc evts).2.1 → p ≤ 95) ∧
    (∀ (sanitize : String → String) (validate : String → Option String)
      (estTotal : Nat) (ds : List String),
      (progressValues (runGenerationStream sanitize validate estTotal
        (ds.map StreamEvt.textDelta) none)).getLast? = some 100) := by
  refine ⟨?_, ?_, ?_⟩
  · intro e n1 n2 _ h
    exact progressPercent_mono e n1 n2 h
  · exact runStream_progress_le
  · exact runGenerationStream_final_100

/-- C6 witness: the amended theorem applied at concrete inputs, discharging
each hypothesis there. -/
theorem progress_percent_spec_witness :
    progressPercent 400 3 ≤ progressPercent 400 5 ∧
    (9 : Nat) ≤ 95 ∧
    (progressValues (runGenerationStream sanitizeId validateNone 400
      (["a\n", "b"].map StreamEvt.textDelta) none)).getLast? = some 100 :=
  ⟨progress_percent_spec.1 400 3 5 (by decide) (by decide),
   progress_percent_spec.2.1 400
     [StreamEvt.textDelta c6Delta1, StreamEvt.textDelta c6Delta2] "" 9
     (by decide),
   progress_percent_spec.2.2 sanitizeId validateNone 400 ["a\n", "b"]⟩

/-! ## C7 -/

set_option maxRecDepth 100000 in
/-- C7 counterexample: transpiled code defining `const Foo = () => {...}`
whose body holds a nested `const bar`.  The compiler scans with a flat
regex, so the appended statement returns `bar`, the *last keyword occurrence
anywhere*, not `Foo`, the last top-level declaration named by the claim (the
spec-worded `lastTopLevelDeclName` picks `Foo`). -/
theorem appendReturn_toplevel_cex :
    appendReturn c7NestedCode = c7NestedCode ++ "\nreturn bar;" ∧
    lastTopLevelDeclName c7NestedCode = some "Foo" ∧
    c7NestedCode ++ "\nreturn bar;" ≠ c7NestedCode ++ "\nreturn Foo;" := by
  refine ⟨by decide, by decide, by decide⟩

set_option maxRecDepth 100000 in
/-- C7 (amended): when the transpiled code does not contain
`return MyAnimation`, the compiler appends `return MyAnimation;` when it
contains `const MyAnimation` or `function MyAnimation` as a substring;
otherwise it appends a return of the identifier captured by the *last*
`const`/`function` keyword occurrence anywhere in the code (not only at top
level); in particular, for code defining only `const Foo = () => {...}` and
never returning, the appended statement is `return Foo;` and compilation
produces a non-null invokable component handle (under the modelled engine
evaluation). -/
theorem appendReturn_spec (t : String)
    (h1 : strContainsB t "return MyAnimation" = false) :
    (strContainsB t "const MyAnimation" = true →
      appendReturn t = t ++ "\nreturn MyAnimation;") ∧
    (strContainsB t "const MyAnimation" = false →
      strContainsB t "function MyAnimation" = true →
      appendReturn t = t ++ "\nreturn MyAnimation;") ∧
    (∀ nm, strContainsB t "const MyAnimation" = false →
      strContainsB t "function MyAnimation" = false →
      lastDeclName t = some nm →
      appendReturn t = t ++ "\nreturn " ++ nm ++ ";") ∧
    compileCode transpileId jsEvalBody c7FooCode =
      { Component := some JsValue.jsFunc, error := none } := by
  refine ⟨?_, ?_, ?_, by decide⟩
  · intro h2
    simp [appendReturn, h1, h2]
  · intro h2 h3
    simp [appendReturn, h1, h2, h3]
  · intro nm h2 h3 h4
    simp [appendReturn, h1, h2, h3, h4]

set_option maxRecDepth 100000 in
/-- C7 witness: the amended theorem applied at the single-component code,
discharging each hypothesis there. -/
theorem appendReturn_spec_witness :
    appendReturn c7FooCode = c7FooCode ++ "\nreturn Foo;" ∧
    compileCode transpileId jsEvalBody c7FooCode =
      { Component := some JsValue.jsFunc, error := none } :=
  ⟨(appendReturn_spec c7FooCode (by decide)).2.2.1 "Foo" (by decide)
      (by decide) (by decide),
   (appendReturn_spec c7FooCode (by decide)).2.2.2⟩

/-! ## C9 -/

theorem applyFixesGo_length : ∀ (fs : List QFix) (ls : List String)
    (ch : List Int), (applyFixesGo ls ch fs).1.length = ls.length := by
  intro fs
  induction fs with
  | nil => intro ls ch; rfl
  | cons f rest ih =>
    intro ls ch
    rw [applyFixesGo]
    by_cases h : qfixInRange ls.length f = true
    · rw [if_pos h, ih, List.length_set]
    · rw [if_neg h, ih]

theorem applyFixesGo_untouched : ∀ (fs : List QFix) (ls : List String)
    (ch : List Int) (i : Nat),
    (∀ f ∈ fs, qfixInRange ls.length f = true → f.lineNumber ≠ (i : Int) + 1) →
    (applyFixesGo ls ch fs).1[i]? = ls[i]? := by
  intro fs
  induction fs with
  | nil => intro ls ch i _; rfl
  | cons f rest ih =>
    intro ls ch i h
    rw [applyFixesGo]
    by_cases hr : qfixInRange ls.length f = true
    · rw [if_pos hr]
      have hne : f.lineNumber ≠ (i : Int) + 1 := h f (List.mem_cons_self f rest) hr
      have hbounds : 0 ≤ f.lineNumber - 1 ∧ f.lineNumber - 1 < (ls.length : Int) := by
        unfold qfixInRange at hr
        simp only [Bool.and_eq_true, decide_eq_true_eq] at hr
        exact hr
      have hidx : (f.lineNumber - 1).toNat ≠ i := by omega
      have hrec := ih (ls.set (f.lineNumber - 1).toNat f.fixedLine)
        (ch ++ [f.lineNumber]) i ?_
      · rw [hrec, List.getElem?_set_ne hidx]
      · intro f2 hm hr2
        rw [List.length_set] at hr2
        exact h f2 (List.mem_cons_of_mem _ hm) hr2
    · rw [if_neg hr]
      exact ih ls ch i (fun f2 hm hr2 => h f2 (List.mem_cons_of_mem _ hm) hr2)

theorem applyFixesGo_changed : ∀ (fs : List QFix) (ls : List String)
    (ch : List Int),
    (applyFixesGo ls ch fs).2 =
      ch ++ (fs.filter (qfixInRange ls.length)).map QFix.lineNumber := by
  intro fs
  induction fs with
  | nil => intro ls ch; simp [applyFixesGo]
  | cons f rest ih =>
    intro ls ch
    rw [applyFixesGo]
    by_cases hr : qfixInRange ls.length f = true
    · rw [if_pos hr, ih, List.length_set, List.filter_cons, if_pos hr]
      simp
    · rw [if_neg hr, ih, List.filter_cons, if_neg hr]

theorem applyFixesGo_skip_invalid : ∀ (fs : List QFix) (ls : List String)
    (ch : List Int),
    applyFixesGo ls ch fs = applyFixesGo ls ch (fs.filter (qfixInRange ls.length)) := by
  intro fs
  induction fs with
  | nil => intro ls ch; simp [List.filter]
  | cons f rest ih =>
    intro ls ch
    by_cases hr : qfixInRange ls.length f = true
    · rw [List.filter_cons, if_pos hr, applyFixesGo, applyFixesGo,
        if_pos hr, if_pos hr, ih, List.length_set]
    · rw [List.filter_cons, if_neg hr, applyFixesGo, if_neg hr, ih]

/-- C9: the quick-fix application changes only the lines whose 1-based
numbers occur among the in-range fix entries (every other line of the result
equals the corresponding input line, and the line count is preserved), the
returned `linesChanged` lists exactly the line numbers of the in-range
entries actually applied, in order, and any entry whose line number lies
outside `1..n` is skipped without altering anything. -/
theorem quickFix_line_replacement :
    (∀ (fixes : List QFix) (ls : List String),
      (applyFixes fixes ls).1.length = ls.length) ∧
    (∀ (fixes : List QFix) (ls : List String) (i : Nat),
      (∀ f ∈ fixes, qfixInRange ls.length f = true →
        f.lineNumber ≠ (i : Int) + 1) →
      (applyFixes fixes ls).1[i]? = ls[i]?) ∧
    (∀ (fixes : List QFix) (ls : List String),
      (applyFixes fixes ls).2 =
        (fixes.filter (qfixInRange ls.length)).map QFix.lineNumber) ∧
    (∀ (fixes : List QFix) (ls : List String),
      applyFixes fixes ls =
        applyFixes (fixes.filter (qfixInRange ls.length)) ls) := by
  refine ⟨?_, ?_, ?_, ?_⟩
  · intro fixes ls
    exact applyFixesGo_length fixes ls []
  · intro fixes ls i h
    exact applyFixesGo_untouched fixes ls [] i h
  · intro fixes ls
    have h := applyFixesGo_changed fixes ls []
    simpa using h
  · intro fixes ls
    exact applyFixesGo_skip_invalid fixes ls []

/-- C9 witness: the theorem applied at the ten-line example with a single
fix for line 4 plus one out-of-range entry, discharging each hypothesis
there. -/
theorem quickFix_line_replacement_witness :
    (applyFixes [{ lineNumber := 4, fixedLine := "FIXED" }]
      ["l1", "l2", "l3", "l4", "l5", "l6", "l7", "l8", "l9", "l10"]).1[2]? =
      ["l1", "l2", "l3", "l4", "l5", "l6", "l7", "l8", "l9", "l10"][2]? ∧
    (applyFixes [{ lineNumber := 4, fixedLine := "FIXED" },
        { lineNumber := 11, fixedLine := "X" }]
      ["l1", "l2", "l3", "l4", "l5", "l6", "l7", "l8", "l9", "l10"]).2 =
      ([{ lineNumber := 4, fixedLine := "FIXED" },
        { lineNumber := 11, fixedLine := "X" }].filter
          (qfixInRange 10)).map QFix.lineNumber :=
  ⟨quickFix_line_replacement.2.1 [{ lineNumber := 4, fixedLine := "FIXED" }]
      ["l1", "l2", "l3", "l4", "l5", "l6", "l7", "l8", "l9", "l10"] 2
      (by decide),
   quickFix_line_replacement.2.2.1
      [{ lineNumber := 4, fixedLine := "FIXED" },
       { lineNumber := 11, fixedLine := "X" }]
      ["l1", "l2", "l3", "l4", "l5", "l6", "l7", "l8", "l9", "l10"]⟩

/-! ## C10 -/

theorem checkRateLimit_none (now : Nat) :
    checkRateLimit now none =
      ({ allowed := true, remaining := (maxRequestsPerWindow : Int) - 1,
         resetIn := (windowMs : Int), reason := none },
       { count := 1, firstRequest := now, lastRequest := now }) := rfl

theorem checkRateLimit_reset (now : Nat) (e : RLEntry)
    (h : now - e.firstRequest > windowMs) :
    checkRateLimit now (some e) =
      ({ allowed := true, remaining := (maxRequestsPerWindow : Int) - 1,
         resetIn := (windowMs : Int), reason := none },
       { count := 1, firstRequest := now, lastRequest := now }) := by
  simp only [checkRateLimit]
  rw [if_pos h]

theorem checkRateLimit_cooldown (now : Nat) (e : RLEntry)
    (h1 : ¬ now - e.firstRequest > windowMs)
    (h2 : now - e.lastRequest < cooldownMs) :
    checkRateLimit now (some e) =
      ({ allowed := false,
         remaining := (maxRequestsPerWindow : Int) - (e.count : Int),
         resetIn := (cooldownMs : Int) - ((now - e.lastRequest : Nat) : Int),
         reason := some ("Cooldown: wait " ++
           toString (ceilDiv1000 (cooldownMs - (now - e.lastRequest))) ++ "s") },
       e) := by
  simp only [checkRateLimit]
  rw [if_neg h1, if_pos h2]

theorem checkRateLimit_limit (now : Nat) (e : RLEntry)
    (h1 : ¬ now - e.firstRequest > windowMs)
    (h2 : ¬ now - e.lastRequest < cooldownMs)
    (h3 : e.count ≥ maxRequestsPerWindow) :
    checkRateLimit now (some e) =
      ({ allowed := false, remaining := 0,
         resetIn := (windowMs : Int) - ((now - e.firstRequest : Nat) : Int),
         reason := some ("Rate limit exceeded: " ++ toString e.count ++ "/" ++
           toString maxRequestsPerWindow ++ " requests. Reset in " ++
           toString (ceilDiv1000 (windowMs - (now - e.firstRequest))) ++ "s") },
       e) := by
  simp only [checkRateLimit]
  rw [if_neg h1, if_neg h2, if_pos h3]

theorem checkRateLimit_allow (now : Nat) (e : RLEntry)
    (h1 : ¬ now - e.firstRequest > windowMs)
    (h2 : ¬ now - e.lastRequest < cooldownMs)
    (h3 : ¬ e.count ≥ maxRequestsPerWindow) :
    checkRateLimit now (some e) =
      ({ allowed := true,
         remaining := (maxRequestsPerWindow : Int) - ((e.count : Int) + 1),
         resetIn := (windowMs : Int) - ((now - e.firstRequest : Nat) : Int),
         reason := none },
       { count := e.count + 1, firstRequest := e.firstRequest,
         lastRequest := now }) := by
  simp only [checkRateLimit]
  rw [if_neg h1, if_neg h2, if_neg h3]

theorem allowedInWindow_cons_hit (w : Nat) (p : RateLimitResult × RLEntry)
    (ps : List (RateLimitResult × RLEntry)) (h1 : p.1.allowed = true)
    (h2 : p.2.firstRequest = w) :
    allowedInWindow w (p :: ps) = 1 + allowedInWindow w ps := by
  unfold allowedInWindow
  rw [List.filter_cons, if_pos (by simp [h1, h2])]
  simp [Nat.add_comm]

theorem allowedInWindow_cons_miss (w : Nat) (p : RateLimitResult × RLEntry)
    (ps : List (RateLimitResult × RLEntry))
    (h : p.1.allowed = false ∨ p.2.firstRequest ≠ w) :
    allowedInWindow w (p :: ps) = allowedInWindow w ps := by
  unfold allowedInWindow
  rcases h with h | h
  · rw [List.filter_cons, if_neg (by simp [h])]
  · rw [List.filter_cons, if_neg (by simp [h])]

theorem rlWf_tail {e : RLEntry} {t : Nat} {ts : List Nat}
    (h : rlWf (some e) (t :: ts)) : rlWf (some e) ts := by
  intro e2 he2
  obtain ⟨h1, h2, h3, h4⟩ := h e2 he2
  exact ⟨h1, h2, h3, fun u hu => h4 u (List.mem_cons_of_mem _ hu)⟩

theorem rlWf_mk (c f l : Nat) (ts : List Nat) (h1 : 1 ≤ c)
    (h2 : c ≤ maxRequestsPerWindow) (h3 : f ≤ l) (h4 : ∀ u ∈ ts, l ≤ u) :
    rlWf (some { count := c, firstRequest := f, lastRequest := l }) ts := by
  intro e2 he2
  obtain rfl := Option.some.inj he2
  exact ⟨h1, h2, h3, h4⟩

theorem rl_allowed_zero : ∀ (times : List Nat) (e : RLEntry) (w : Nat),
    List.Sorted (· ≤ ·) times → rlWf (some e) times → w < e.firstRequest →
    allowedInWindow w (rlRun times (some e)) = 0 := by
  intro times
  induction times with
  | nil => intro e w _ _ _; rfl
  | cons t ts ih =>
    intro e w hs hwf hlt
    obtain ⟨hc1, hc2, hfl, hlast⟩ := hwf e rfl
    have hts : List.Sorted (· ≤ ·) ts := (List.sorted_cons.mp hs).2
    have hhead : ∀ u ∈ ts, t ≤ u := (List.sorted_cons.mp hs).1
    have hlt_t : e.lastRequest ≤ t := hlast t (List.mem_cons_self t ts)
    by_cases hreset : t - e.firstRequest > windowMs
    · simp only [rlRun, checkRateLimit_reset t e hreset]
      rw [allowedInWindow_cons_miss w _ _ (Or.inr (show t ≠ w by omega))]
      exact ih (RLEntry.mk 1 t t) w hts
        (rlWf_mk 1 t t ts (le_refl 1) (by simp [maxRequestsPerWindow])
          (le_refl t) hhead) (by simpa using by omega)
    · by_cases hcool : t - e.lastRequest < cooldownMs
      · simp only [rlRun, checkRateLimit_cooldown t e hreset hcool]
        rw [allowedInWindow_cons_miss w _ _ (Or.inl rfl)]
        exact ih e w hts (rlWf_tail hwf) hlt
      · by_cases hmax : e.count ≥ maxRequestsPerWindow
        · simp only [rlRun, checkRateLimit_limit t e hreset hcool hmax]
          rw [allowedInWindow_cons_miss w _ _ (Or.inl rfl)]
          exact ih e w hts (rlWf_tail hwf) hlt
        · simp only [rlRun, checkRateLimit_allow t e hreset hcool hmax]
          rw [allowedInWindow_cons_miss w _ _
            (Or.inr (show e.firstRequest ≠ w by omega))]
          exact ih (RLEntry.mk (e.count + 1) e.firstRequest t) w hts
            (rlWf_mk (e.count + 1) e.firstRequest t ts (by omega) (by omega)
              (by omega) hhead) (by simpa using hlt)

theorem rl_window_bound : ∀ (times : List Nat) (st : Option RLEntry) (w : Nat),
    List.Sorted (· ≤ ·) times → rlWf st times →
    allowedInWindow w (rlRun times st) ≤ windowSlack w st := by
  intro times
  induction times with
  | nil =>
    intro st w _ _
    simp only [rlRun, allowedInWindow, List.filter_nil, List.length_nil]
    exact Nat.zero_le _
  | cons t ts ih =>
    intro st w hs hwf
    have hts : List.Sorted (· ≤ ·) ts := (List.sorted_cons.mp hs).2
    have hhead : ∀ u ∈ ts, t ≤ u := (List.sorted_cons.mp hs).1
    rcases st with _ | e
    · simp only [rlRun, checkRateLimit_none t]
      have hwfF := rlWf_mk 1 t t ts (le_refl 1)
        (by simp [maxRequestsPerWindow]) (le_refl t) hhead
      have hrec := ih (some (RLEntry.mk 1 t t)) w hts hwfF
      by_cases hw : t = w
      · rw [allowedInWindow_cons_hit w _ _ rfl hw]
        subst hw
        simp [windowSlack, maxRequestsPerWindow] at hrec ⊢
        omega
      · rw [allowedInWindow_cons_miss w _ _ (Or.inr hw)]
        simp [windowSlack, hw, maxRequestsPerWindow] at hrec ⊢
        omega
    · obtain ⟨hc1, hc2, hfl, hlast⟩ := hwf e rfl
      have hlt_t : e.lastRequest ≤ t := hlast t (List.mem_cons_self t ts)
      by_cases hreset : t - e.firstRequest > windowMs
      · simp only [rlRun, checkRateLimit_reset t e hreset]
        have hfe : e.firstRequest < t := by omega
        have hwfF := rlWf_mk 1 t t ts (le_refl 1)
          (by simp [maxRequestsPerWindow]) (le_refl t) hhead
        by_cases hw : t = w
        · rw [allowedInWindow_cons_hit w _ _ rfl hw]
          have hrec := ih (some (RLEntry.mk 1 t t)) w hts hwfF
          subst hw
          have hew : ¬ e.firstRequest = t := by omega
          simp [windowSlack, hew, maxRequestsPerWindow] at hrec ⊢
          omega
        · rw [allowedInWindow_cons_miss w _ _ (Or.inr hw)]
          by_cases hew : e.firstRequest = w
          · have hzero := rl_allowed_zero ts (RLEntry.mk 1 t t) w hts hwfF
              (by simpa using by omega)
            rw [hzero]
            exact Nat.zero_le _
          · have hrec := ih (some (RLEntry.mk 1 t t)) w hts hwfF
            simp [windowSlack, hw, hew, maxRequestsPerWindow] at hrec ⊢
            omega
      · by_cases hcool : t - e.lastRequest < cooldownMs
        · simp only [rlRun, checkRateLimit_cooldown t e hreset hcool]
          rw [allowedInWindow_cons_miss w _ _ (Or.inl rfl)]
          exact ih (some e) w hts (rlWf_tail hwf)
        · by_cases hmax : e.count ≥ maxRequestsPerWindow
          · simp only [rlRun, checkRateLimit_limit t e hreset hcool hmax]
            rw [allowedInWindow_cons_miss w _ _ (Or.inl rfl)]
            exact ih (some e) w hts (rlWf_tail hwf)
          · simp only [rlRun, checkRateLimit_allow t e hreset hcool hmax]
            have hwf2 := rlWf_mk (e.count + 1) e.firstRequest t ts (by omega)
              (by omega) (by omega) hhead
            have hrec := ih (some (RLEntry.mk (e.count + 1) e.firstRequest t))
              w hts hwf2
            by_cases hew : e.firstRequest = w
            · rw [allowedInWindow_cons_hit w _ _ rfl hew]
              have hs1 : windowSlack w
                  (some (RLEntry.mk (e.count + 1) e.firstRequest t)) =
                  maxRequestsPerWindow - (e.count + 1) := by
                simp [windowSlack, hew]
              have hs2 : windowSlack w (some e) =
                  maxRequestsPerWindow - e.count := by
                simp [windowSlack, hew]
              rw [hs1] at hrec
              rw [hs2]
              omega
            · rw [allowedInWindow_cons_miss w _ _ (Or.inr hew)]
              have hs1 : windowSlack w
                  (some (RLEntry.mk (e.count + 1) e.firstRequest t)) =
                  maxRequestsPerWindow := by
                simp [windowSlack, hew]
              have hs2 : windowSlack w (some e) = maxRequestsPerWindow := by
                simp [windowSlack, hew]
              rw [hs1] at hrec
              rw [hs2]
              exact hrec

theorem rl_remaining_nonneg : ∀ (times : List Nat) (st : Option RLEntry),
    List.Sorted (· ≤ ·) times → rlWf st times →
    ∀ r ∈ (rlRun times st).map Prod.fst, 0 ≤ r.remaining := by
  intro times
  induction times with
  | nil => intro st _ _ r hr; simp [rlRun] at hr
  | cons t ts ih =>
    intro st hs hwf r hr
    have hts : List.Sorted (· ≤ ·) ts := (List.sorted_cons.mp hs).2
    have hhead : ∀ u ∈ ts, t ≤ u := (List.sorted_cons.mp hs).1
    rcases st with _ | e
    · rw [rlRun] at hr
      simp only [checkRateLimit_none t, List.map_cons, List.mem_cons] at hr
      rcases hr with hr | hr
      · subst hr
        simp [maxRequestsPerWindow]
      · exact ih (some (RLEntry.mk 1 t t)) hts
          (rlWf_mk 1 t t ts (le_refl 1) (by simp [maxRequestsPerWindow])
            (le_refl t) hhead) r (by simpa using hr)
    · obtain ⟨hc1, hc2, hfl, hlast⟩ := hwf e rfl
      have hlt_t : e.lastRequest ≤ t := hlast t (List.mem_cons_self t ts)
      by_cases hreset : t - e.firstRequest > windowMs
      · rw [rlRun] at hr
        simp only [checkRateLimit_reset t e hreset, List.map_cons,
          List.mem_cons] at hr
        rcases hr with hr | hr
        · subst hr
          simp [maxRequestsPerWindow]
        · exact ih (some (RLEntry.mk 1 t t)) hts
            (rlWf_mk 1 t t ts (le_refl 1) (by simp [maxRequestsPerWindow])
              (le_refl t) hhead) r (by simpa using hr)
      · by_cases hcool : t - e.lastRequest < cooldownMs
        · rw [rlRun] at hr
          simp only [checkRateLimit_cooldown t e hreset hcool, List.map_cons,
            List.mem_cons] at hr
          rcases hr with hr | hr
          · subst hr
            simp only [maxRequestsPerWindow] at hc2 ⊢
            omega
          · exact ih (some e) hts (rlWf_tail hwf) r (by simpa using hr)
        · by_cases hmax : e.count ≥ maxRequestsPerWindow
          · rw [rlRun] at hr
            simp only [checkRateLimit_limit t e hreset hcool hmax,
              List.map_cons, List.mem_cons] at hr
            rcases hr with hr | hr
            · subst hr
              simp
            · exact ih (some e) hts (rlWf_tail hwf) r (by simpa using hr)
          · rw [rlRun] at hr
            simp only [checkRateLimit_allow t e hreset hcool hmax,
              List.map_cons, List.mem_cons] at hr
            rcases hr with hr | hr
            · subst hr
              simp only [maxRequestsPerWindow] at hmax ⊢
              omega
            · exact ih (some (RLEntry.mk (e.count + 1) e.firstRequest t)) hts
                (rlWf_mk (e.count + 1) e.firstRequest t ts (by omega) (by omega)
                  (by omega) hhead) r (by simpa using hr)

/-- C10: the in-memory rate limiter admits the first request of a key;
over any nondecreasing sequence of call times it allows at most
`MAX_REQUESTS_PER_WINDOW = 10` calls attributed to any one window (a window
is identified by the stored `firstRequest` that opened it); a call arriving
within `COOLDOWN_MS = 5000` of the previous allowed call of an un-expired
window is rejected with the cooldown reason; and no returned `remaining`
count is ever negative. -/
theorem checkRateLimit_spec :
    (∀ now : Nat, (checkRateLimit now none).1.allowed = true) ∧
    (∀ (times : List Nat) (w : Nat), List.Sorted (· ≤ ·) times →
      allowedInWindow w (rlRun times none) ≤ maxRequestsPerWindow) ∧
    (∀ (now : Nat) (e : RLEntry), ¬ now - e.firstRequest > windowMs →
      now - e.lastRequest < cooldownMs →
      (checkRateLimit now (some e)).1.allowed = false ∧
      (checkRateLimit now (some e)).1.reason =
        some ("Cooldown: wait " ++
          toString (ceilDiv1000 (cooldownMs - (now - e.lastRequest))) ++ "s")) ∧
    (∀ times : List Nat, List.Sorted (· ≤ ·) times →
      ∀ r ∈ (rlRun times none).map Prod.fst, 0 ≤ r.remaining) := by
  refine ⟨?_, ?_, ?_, ?_⟩
  · intro now
    rw [checkRateLimit_none]
  · intro times w hs
    have hb := rl_window_bound times none w hs (fun e h => nomatch h)
    simpa [windowSlack] using hb
  · intro now e h1 h2
    rw [checkRateLimit_cooldown now e h1 h2]
    exact ⟨rfl, rfl⟩
  · intro times hs
    exact rl_remaining_nonneg times none hs (fun e h => nomatch h)

/-- C10 witness: the theorem applied at concrete clock readings, discharging
each hypothesis there. -/
theorem checkRateLimit_spec_witness :
    (checkRateLimit 0 none).1.allowed = true ∧
    allowedInWindow 0 (rlRun [0, 6000, 12000] none) ≤ maxRequestsPerWindow ∧
    ((checkRateLimit 1000 (some (RLEntry.mk 1 0 0))).1.allowed = false ∧
      (checkRateLimit 1000 (some (RLEntry.mk 1 0 0))).1.reason =
        some ("Cooldown: wait " ++
          toString (ceilDiv1000 (cooldownMs - (1000 - 0))) ++ "s")) ∧
    (∀ r ∈ (rlRun [0, 6000] none).map Prod.fst, 0 ≤ r.remaining) :=
  ⟨checkRateLimit_spec.1 0,
   checkRateLimit_spec.2.1 [0, 6000, 12000] 0 (by decide),
   checkRateLimit_spec.2.2.1 1000 (RLEntry.mk 1 0 0) (by decide) (by decide),
   checkRateLimit_spec.2.2.2 [0, 6000] (by decide)⟩
